import Mathlib

/-!
Shallow embedding of the mixlab RTMP-to-fragmented-MP4 pipeline, covering
`src/mux/src/mp4.rs` (muxer), `src/src/video.rs` (frame identity) and
`src/src/rtmp/mod.rs` (session adapter / audio / video pipelines).

Conventions:
* Rust `u32` fields are modelled as `ℕ` and `i32`/`i64` as `ℤ`, with the
  truncating casts (`as u32`, `as i32`) and wrapping arithmetic made explicit
  as reductions modulo `2 ^ 32`.
* `Rational64` values are modelled as `ℚ`.
* Fallible Rust code (panics, early `return Err`) is modelled with `Option`
  and explicit outcome types.
* Reference-counted pointers (`Arc`) are modelled arena-style: an allocation
  is an address (`ℕ`) paired with the pointed-to value, and pointer equality
  is address equality.
-/

namespace Mixlab

/-- Rust `x as u32` for `x : i64`: keep the low 32 bits (non-negative result). -/
def u32ofI64 (x : ℤ) : ℕ := (x % (2 ^ 32 : ℤ)).toNat

/-- Rust `x as i32` for an integer `x`: the low 32 bits, two's complement signed. -/
def i32ofI64 (x : ℤ) : ℤ := (x + 2 ^ 31) % 2 ^ 32 - 2 ^ 31

/-- Modelled from the spec: `MediaTime` (crate `mixlab-util`, source not under
`src/`) is "a rational number (numerator over a time base denominator)
representing elapsed media time"; modelled as `ℚ`. -/
abbrev MediaTime := ℚ

/-- Modelled from the spec: `MediaDuration` (crate `mixlab-util`, source not
under `src/`), a rational duration, modelled as `ℚ`. -/
abbrev MediaDuration := ℚ

/-- Modelled from the spec: `MediaTime::round_to_base` converts a rational time
into whole ticks of `base`, rounding "deterministically down". -/
def MediaTime.round_to_base (t : MediaTime) (base : ℤ) : ℤ := ⌊t * (base : ℚ)⌋

/-! ## fMP4 media-segment box model (`mse_fmp4` box tree as built by `mp4.rs`) -/

/-- `mse_fmp4::fmp4::SampleFlags` (field names as in the source, including the
`sample_is_depdended_on` typo). -/
structure SampleFlags where
  is_leading : ℕ
  sample_depends_on : ℕ
  sample_is_non_sync_sample : Bool
  sample_is_depdended_on : ℕ
  sample_has_redundancy : ℕ
  sample_padding_value : ℕ
  sample_degradation_priority : ℕ
deriving DecidableEq, Repr

/-- `mse_fmp4::fmp4::Sample`: one sample row of a `trun` box. -/
structure Sample where
  duration : Option ℕ
  size : Option ℕ
  composition_time_offset : Option ℤ
  flags : Option SampleFlags
deriving DecidableEq, Repr

/-- `trun` box. -/
structure TrackRunBox where
  data_offset : Option ℤ
  first_sample_flags : Option ℕ
  samples : List Sample
deriving DecidableEq, Repr

/-- `tfhd` box. -/
structure TrackFragmentHeaderBox where
  track_id : ℕ
  duration_is_empty : Bool
  default_base_is_moof : Bool
  base_data_offset : Option ℕ
  sample_description_index : Option ℕ
  default_sample_duration : Option ℕ
  default_sample_size : Option ℕ
  default_sample_flags : Option ℕ
deriving DecidableEq, Repr

/-- `tfdt` box (version 0, 32-bit decode time as written by the mux). -/
structure TrackFragmentBaseMediaDecodeTimeBox where
  base_media_decode_time : ℕ
deriving DecidableEq, Repr

/-- `traf` box. -/
structure TrackFragmentBox where
  tfhd_box : TrackFragmentHeaderBox
  tfdt_box : Option TrackFragmentBaseMediaDecodeTimeBox
  trun_box : TrackRunBox
deriving DecidableEq, Repr

/-- `mfhd` box. -/
structure MovieFragmentHeaderBox where
  sequence_number : ℕ
deriving DecidableEq, Repr

/-- `moof` box. -/
structure MovieFragmentBox where
  mfhd_box : MovieFragmentHeaderBox
  traf_boxes : List TrackFragmentBox
deriving DecidableEq, Repr

/-- `mdat` box: raw sample payload bytes. -/
structure MediaDataBox where
  data : List ℕ
deriving DecidableEq, Repr

/-- A media segment: one `moof` followed by its `mdat` boxes. -/
structure MediaSegment where
  moof_box : MovieFragmentBox
  mdat_boxes : List MediaDataBox
deriving DecidableEq, Repr

/-- Byte size contributed by an optional box field that serializes to `n`
bytes when present. -/
def optSize (n : ℕ) (o : Option α) : ℕ := if o.isSome then n else 0

/-- Modelled from the spec: serialized byte size of a `tfhd` box.  The byte
serializer is the external `mse_fmp4` crate (an out-of-scope collaborator);
sizes follow the ISO BMFF box layouts named in the spec (full box header of
12 bytes, 4-byte `track_id`, then the optional fields enabled by `tf_flags`). -/
def TrackFragmentHeaderBox.box_size (b : TrackFragmentHeaderBox) : ℕ :=
  16 + optSize 8 b.base_data_offset + optSize 4 b.sample_description_index +
    optSize 4 b.default_sample_duration + optSize 4 b.default_sample_size +
    optSize 4 b.default_sample_flags

/-- Modelled from the spec: bytes of one `trun` sample row (one 4-byte field
per present column). -/
def Sample.entry_size (s : Sample) : ℕ :=
  optSize 4 s.duration + optSize 4 s.size + optSize 4 s.composition_time_offset +
    optSize 4 s.flags

/-- Modelled from the spec: serialized byte size of a `trun` box (full box
header 12, sample count 4, optional 4-byte `data_offset` and
`first_sample_flags`, then the sample rows). -/
def TrackRunBox.box_size (b : TrackRunBox) : ℕ :=
  16 + optSize 4 b.data_offset + optSize 4 b.first_sample_flags +
    (b.samples.map Sample.entry_size).sum

/-- Modelled from the spec: serialized byte size of a `traf` box (plain box
header 8, `tfhd`, optional version-0 `tfdt` of 16 bytes, `trun`). -/
def TrackFragmentBox.box_size (b : TrackFragmentBox) : ℕ :=
  8 + b.tfhd_box.box_size + (if b.tfdt_box.isSome then 16 else 0) + b.trun_box.box_size

/-- Modelled from the spec: serialized byte size of a `moof` box (plain box
header 8, `mfhd` of 16, then the `traf` boxes). -/
def MovieFragmentBox.box_size (b : MovieFragmentBox) : ℕ :=
  8 + 16 + (b.traf_boxes.map TrackFragmentBox.box_size).sum

/-! ## Muxer data model (`src/mux/src/mp4.rs`) -/

/-- `AdtsFrame(pub Bytes)`: an ADTS-framed AAC access unit. -/
structure AdtsFrame where
  bytes : List ℕ
deriving DecidableEq, Repr

/-- `AvcFrame` as consumed by the muxer. -/
structure AvcFrame where
  is_key_frame : Bool
  composition_time : MediaDuration
  data : List ℕ
deriving DecidableEq, Repr

/-- `TrackData`: tagged union of an audio ADTS unit or a video AVC unit. -/
inductive TrackData where
  | audio : AdtsFrame → TrackData
  | video : AvcFrame → TrackData
deriving DecidableEq, Repr

/-- `Mp4Params`. -/
structure Mp4Params where
  timescale : ℕ
  width : ℕ
  height : ℕ
  dcr : List ℕ
deriving DecidableEq, Repr

/-- `Mp4Mux`: per-session muxer state. `sequence` and `timescale` are `u32`
in the source. -/
structure Mp4Mux where
  sequence : ℕ
  timescale : ℕ
  audio_time : MediaTime
  video_time : MediaTime
deriving DecidableEq, Repr

def AUDIO_TRACK : ℕ := 1
def VIDEO_TRACK : ℕ := 2

/-! ## Initialization segment model -/

structure MovieHeaderBox where
  timescale : ℕ
  duration : ℕ
deriving DecidableEq, Repr

structure TrackHeaderBox where
  track_id : ℕ
  duration : ℕ
  volume : ℕ
  width : ℕ
  height : ℕ
deriving DecidableEq, Repr

structure MediaHeaderBox where
  timescale : ℕ
  duration : ℕ
deriving DecidableEq, Repr

structure HandlerReferenceBox where
  handler_type : String
  name : String
deriving DecidableEq, Repr

inductive AacProfile | lc
deriving DecidableEq, Repr

inductive SamplingFrequency | hz44100
deriving DecidableEq, Repr

inductive ChannelConfiguration | twoChannels
deriving DecidableEq, Repr

structure Mpeg4EsDescriptorBox where
  profile : AacProfile
  frequency : SamplingFrequency
  channel_configuration : ChannelConfiguration
deriving DecidableEq, Repr

structure AacSampleEntry where
  esds_box : Mpeg4EsDescriptorBox
deriving DecidableEq, Repr

structure AvcSampleEntry where
  width : ℕ
  height : ℕ
  avcc_dcr : List ℕ
deriving DecidableEq, Repr

inductive SampleEntry where
  | aac : AacSampleEntry → SampleEntry
  | avc : AvcSampleEntry → SampleEntry
deriving DecidableEq, Repr

structure SampleDescriptionBox where
  sample_entries : List SampleEntry
deriving DecidableEq, Repr

structure SampleTableBox where
  stsd_box : SampleDescriptionBox
deriving DecidableEq, Repr

/-- `minf` box: which media header is present, plus the sample table. -/
structure MediaInformationBox where
  has_vmhd : Bool
  has_smhd : Bool
  stbl_box : SampleTableBox
deriving DecidableEq, Repr

structure MediaBox where
  mdhd_box : MediaHeaderBox
  hdlr_box : HandlerReferenceBox
  minf_box : MediaInformationBox
deriving DecidableEq, Repr

structure TrackBox where
  tkhd_box : TrackHeaderBox
  mdia_box : MediaBox
deriving DecidableEq, Repr

structure TrackExtendsBox where
  track_id : ℕ
  default_sample_description_index : ℕ
  default_sample_duration : ℕ
  default_sample_size : ℕ
  default_sample_flags : ℕ
deriving DecidableEq, Repr

structure MovieExtendsBox where
  trex_boxes : List TrackExtendsBox
deriving DecidableEq, Repr

structure MovieBox where
  mvhd_box : MovieHeaderBox
  trak_boxes : List TrackBox
  mvex_box : MovieExtendsBox
deriving DecidableEq, Repr

structure InitializationSegment where
  moov_box : MovieBox
deriving DecidableEq, Repr

/-- `make_init_segment` (`mp4.rs:81-223`), field for field. -/
def make_init_segment (mux : Mp4Mux) (params : Mp4Params) : InitializationSegment :=
  { moov_box :=
    { mvhd_box :=
      { timescale := mux.timescale
        -- no duration outside of extension fragments:
        duration := 0 }
      trak_boxes :=
        [ -- audio track:
          { tkhd_box :=
            { track_id := AUDIO_TRACK
              -- If the duration of a track cannot be determined,
              -- then the duration is set to all 1s (32-bit maxint)
              duration := 2 ^ 32 - 1
              volume := 0x0100
              width := 0
              height := 0 }
            mdia_box :=
            { mdhd_box := { timescale := mux.timescale, duration := 0 }
              hdlr_box := { handler_type := "soun", name := "Mixlab Audio" }
              minf_box :=
              { has_vmhd := false
                has_smhd := true
                stbl_box :=
                { stsd_box :=
                  { sample_entries :=
                    [SampleEntry.aac
                      { esds_box :=
                        { profile := AacProfile.lc
                          frequency := SamplingFrequency.hz44100
                          channel_configuration := ChannelConfiguration.twoChannels } }] } } } } },
          -- video track:
          { tkhd_box :=
            { track_id := VIDEO_TRACK
              duration := 2 ^ 32 - 1
              volume := 0x0100
              width := params.width
              height := params.height }
            mdia_box :=
            { mdhd_box := { timescale := mux.timescale, duration := 0 }
              hdlr_box := { handler_type := "vide", name := "Mixlab Video" }
              minf_box :=
              { has_vmhd := true
                has_smhd := false
                stbl_box :=
                { stsd_box :=
                  { sample_entries :=
                    [SampleEntry.avc
                      { width := params.width % 2 ^ 16
                        height := params.height % 2 ^ 16
                        avcc_dcr := params.dcr }] } } } } } ]
      mvex_box :=
      { trex_boxes :=
        [ { track_id := AUDIO_TRACK
            default_sample_description_index := 1
            default_sample_duration := 0
            default_sample_size := 0
            default_sample_flags := 0 },
          { track_id := VIDEO_TRACK
            default_sample_description_index := 1
            default_sample_duration := 0
            default_sample_size := 0
            default_sample_flags := 0 } ] } } }

/-- `Mp4Mux::new` (`mp4.rs:49-60`): fresh muxer state plus the initialization
segment (serialization to bytes happens in the external `mse_fmp4` writer). -/
def Mp4Mux.new (params : Mp4Params) : Mp4Mux × InitializationSegment :=
  let mux : Mp4Mux :=
    { sequence := 0
      timescale := params.timescale
      audio_time := 0
      video_time := 0 }
  (mux, make_init_segment mux params)

/-- Shared tail of `make_media_segment` (`mp4.rs:327-346`): bump the `u32`
sequence counter, assemble the segment with the dummy `data_offset`, then
patch the first `traf`'s `trun.data_offset` to the `moof` size plus 8. -/
def finish_segment (mux : Mp4Mux) (traf : TrackFragmentBox) (mdat : MediaDataBox) :
    Mp4Mux × MediaSegment :=
  let mux := { mux with sequence := (mux.sequence + 1) % 2 ^ 32 }
  let segment : MediaSegment :=
    { moof_box := { mfhd_box := { sequence_number := mux.sequence }, traf_boxes := [traf] }
      mdat_boxes := [mdat] }
  let moof_size := segment.moof_box.box_size
  let segment :=
    { segment with
      moof_box :=
      { segment.moof_box with
        traf_boxes :=
          match segment.moof_box.traf_boxes with
          | [] => []
          | t :: rest =>
            -- +8 accounts for header in new mdat box:
            { t with trun_box := { t.trun_box with
                data_offset := some (i32ofI64 (moof_size : ℤ) + 8) } } :: rest } }
  (mux, segment)

/-- `make_media_segment` (`mp4.rs:225-347`).  Returns `none` where the Rust
code panics: slicing `[7..]` off an audio payload shorter than 7 bytes. -/
def make_media_segment (mux : Mp4Mux) (duration : MediaDuration) (track_data : TrackData) :
    Option (Mp4Mux × MediaSegment) :=
  match track_data with
  | TrackData.audio adts_frame =>
    if adts_frame.bytes.length < 7 then
      none
    else
      -- snip off 7 byte ADTS header
      let raw_aac := adts_frame.bytes.drop 7
      let time_start_in_mux_base := MediaTime.round_to_base mux.audio_time (mux.timescale : ℤ)
      let time_end := mux.audio_time + duration
      let time_end_in_mux_base := MediaTime.round_to_base time_end (mux.timescale : ℤ)
      let duration_in_mux_base := time_end_in_mux_base - time_start_in_mux_base
      let mux := { mux with audio_time := time_end }
      let audio_frag : TrackFragmentBox :=
        { tfhd_box :=
          { track_id := AUDIO_TRACK
            duration_is_empty := false
            default_base_is_moof := true
            base_data_offset := none
            sample_description_index := none
            default_sample_duration := none
            default_sample_size := none
            default_sample_flags := none }
          tfdt_box := some { base_media_decode_time := u32ofI64 time_start_in_mux_base }
          trun_box :=
          { data_offset := some 0  -- dummy for length calculation
            first_sample_flags := none
            samples :=
              [ { duration := some (u32ofI64 duration_in_mux_base)
                  size := some (raw_aac.length % 2 ^ 32)
                  composition_time_offset := none
                  flags := none } ] } }
      some (finish_segment mux audio_frag { data := raw_aac })
  | TrackData.video avc_frame =>
    let sample_flags : SampleFlags :=
      { is_leading := 0
        -- other samples depend on this:
        sample_depends_on := 1
        -- false signals a key frame:
        sample_is_non_sync_sample := !avc_frame.is_key_frame
        sample_is_depdended_on := 0
        sample_has_redundancy := 0
        sample_padding_value := 0
        sample_degradation_priority := 0 }
    let time_start_in_mux_base := MediaTime.round_to_base mux.video_time (mux.timescale : ℤ)
    let time_end := mux.video_time + duration
    let time_end_in_mux_base := MediaTime.round_to_base time_end (mux.timescale : ℤ)
    let duration_in_mux_base := time_end_in_mux_base - time_start_in_mux_base
    let mux := { mux with video_time := time_end }
    let video_frag : TrackFragmentBox :=
      { tfhd_box :=
        { track_id := VIDEO_TRACK
          duration_is_empty := false
          default_base_is_moof := true
          base_data_offset := none
          sample_description_index := none
          default_sample_duration := none
          default_sample_size := none
          default_sample_flags := none }
        tfdt_box := some { base_media_decode_time := u32ofI64 time_start_in_mux_base }
        trun_box :=
        { data_offset := some 0  -- dummy for length calculation
          first_sample_flags := none
          samples :=
            [ { duration := some (u32ofI64 duration_in_mux_base)
                size := some (avc_frame.data.length % 2 ^ 32)
                composition_time_offset :=
                  some (i32ofI64
                    (MediaTime.round_to_base avc_frame.composition_time (mux.timescale : ℤ)))
                flags := some sample_flags } ] } }
    some (finish_segment mux video_frag { data := avc_frame.data })

/-- `Mp4Mux::write_track` (`mp4.rs:62-66`): build one media segment (the final
`to_bytes` serialization is the external `mse_fmp4` writer). -/
def Mp4Mux.write_track (mux : Mp4Mux) (duration : MediaDuration) (data : TrackData) :
    Option (Mp4Mux × MediaSegment) :=
  make_media_segment mux duration data

/-! ## Frame model (`src/src/video.rs`)

`Arc<Frame>` is modelled arena-style (as the spec's §9 reimplementation note
suggests): an `ArcFrame` is an allocation address paired with the `Frame`
value, `Arc::clone` keeps the address, and the `key_frame` back-reference
inside a `Frame` stores the address of the referenced key-frame allocation. -/

/-- `RtmpError` (`rtmp/mod.rs:41-52`); variants not reachable in the modelled
paths are omitted alongside their external causes. -/
inductive RtmpError where
  | MetadataNotYetSent
  | UnsupportedStream
  | SourceSend
  | Aac
deriving DecidableEq, Repr

/-- `video::Frame`: one decoded video access unit.  `frame_type_is_key`
models `specific.frame_type.is_key_frame()`, `data` the bitstream payload
bytes, and `key_frame` the address of the referenced key-frame allocation
(`Option<Arc<Frame>>` in the source). -/
structure Frame where
  frame_type_is_key : Bool
  data : List ℕ
  duration_hint : ℚ
  key_frame : Option ℕ
deriving DecidableEq, Repr

/-- `Frame::is_key_frame`. -/
def Frame.is_key_frame (f : Frame) : Bool := f.frame_type_is_key

/-- An `Arc<Frame>`: allocation address plus pointed-to value. -/
structure ArcFrame where
  addr : ℕ
  frame : Frame
deriving DecidableEq, Repr

/-- `Arc::clone`: a new handle to the same allocation. -/
def ArcFrame.clone (a : ArcFrame) : ArcFrame := a

/-- `video::FrameId(Arc<Frame>)`. -/
structure FrameId where
  arc : ArcFrame
deriving Repr

/-- `Frame::id(self: &Arc<Frame>)`: wrap a clone of the handle. -/
def ArcFrame.id (a : ArcFrame) : FrameId := ⟨a.clone⟩

/-- `impl PartialEq for FrameId` (`video.rs:30-37`): compare the two `Arc`s'
payload pointers, i.e. the allocation addresses. -/
def FrameId.eq (a b : FrameId) : Bool := a.arc.addr == b.arc.addr

/-! ## Video packet pipeline (`rtmp/mod.rs:263-359`) -/

/-- `StreamMeta`. -/
structure StreamMeta where
  video_frame_duration : ℚ
deriving DecidableEq, Repr

/-- A parsed `AvcPacket` as consumed by `receive_video_packet`.  Parsing
itself (`mixlab_codec::avc`, source not under `src/`) is taken as given:
`is_seq_header` models `packet_type == SequenceHeader`, `dcr_parse_ok` the
outcome of `DecoderConfigurationRecord::parse`, `frame_is_key` the packet's
`frame_type.is_key_frame()`. -/
structure AvcPacket where
  is_seq_header : Bool
  dcr_parse_ok : Bool
  frame_is_key : Bool
  data : List ℕ
deriving DecidableEq, Repr

/-- The video-relevant slice of `ReceiveContext`, plus the arena allocation
counter `next_addr` modelling `Arc::new`. -/
structure VideoCtx where
  meta : Option StreamMeta
  video_dcr : Option Unit
  video_key_frame : Option ArcFrame
  next_addr : ℕ
deriving DecidableEq, Repr

/-- `receive_video_packet` (`rtmp/mod.rs:263-359`).  The input is the parse
result (`none` = parse failure, logged and dropped).  Returns the updated
context and either the session-fatal error or the list of frames pushed to
the sink (the sink's own result is discarded by the source: `let _ = ...`).
External side effects (native decoder call, debug file dump) are omitted. -/
def receive_video_packet (ctx : VideoCtx) (packet : Option AvcPacket) :
    VideoCtx × Except RtmpError (List ArcFrame) :=
  match ctx.meta with
  | none => (ctx, Except.error RtmpError.MetadataNotYetSent)
  | some meta =>
    match packet with
    | none => (ctx, Except.ok [])
    | some packet =>
      let ctx :=
        if packet.is_seq_header && packet.dcr_parse_ok then
          { ctx with video_dcr := some () }
        else
          ctx
      match ctx.video_dcr with
      | some _ =>
        let key_frame :=
          if packet.frame_is_key then
            none
          else
            ctx.video_key_frame.map ArcFrame.addr
        let frame : ArcFrame :=
          { addr := ctx.next_addr
            frame :=
            { frame_type_is_key := packet.frame_is_key
              data := packet.data
              duration_hint := meta.video_frame_duration
              key_frame := key_frame } }
        let ctx := { ctx with next_addr := ctx.next_addr + 1 }
        let ctx :=
          if packet.frame_is_key then
            { ctx with video_key_frame := some frame.clone }
          else
            ctx
        (ctx, Except.ok [frame])
      | none => (ctx, Except.ok [])

/-- Drive `receive_video_packet` over a list of packets, collecting the frames
pushed to the sink and stopping at the first session-fatal error (the receive
loop aborts on `Err`). -/
def run_video (ctx : VideoCtx) : List (Option AvcPacket) →
    VideoCtx × Except RtmpError (List ArcFrame)
  | [] => (ctx, Except.ok [])
  | p :: ps =>
    match receive_video_packet ctx p with
    | (ctx1, Except.error e) => (ctx1, Except.error e)
    | (ctx1, Except.ok fs) =>
      match run_video ctx1 ps with
      | (ctx2, Except.error e) => (ctx2, Except.error e)
      | (ctx2, Except.ok fs2) => (ctx2, Except.ok (fs ++ fs2))

/-- The key-frame pointer after emitting `fs`, starting from pointer `k`:
each emitted key frame replaces the pointer with its own address. -/
def afterKey (k : Option ℕ) (fs : List ArcFrame) : Option ℕ :=
  fs.foldl (fun k f => if f.frame.frame_type_is_key then some f.addr else k) k

/-- The key-frame back-reference discipline, relative to the address `k` of
the most recently observed key frame: a key frame carries no reference and
becomes the new most-recent key frame; a non-key frame references exactly
`k` (one hop, never stale). -/
def goodFrames : Option ℕ → List ArcFrame → Prop
  | _, [] => True
  | k, f :: rest =>
    if f.frame.frame_type_is_key then
      f.frame.key_frame = none ∧ goodFrames (some f.addr) rest
    else
      f.frame.key_frame = k ∧ goodFrames k rest

/-! ## Audio packet pipeline (`rtmp/mod.rs:195-261`) -/

/-- Behaviour of the external fdk-aac decoder and the downstream sink on one
raw AAC packet (collaborators outside this repository, per the spec §6):
whether `fill` succeeds, whether it consumes the whole ADTS buffer, whether
`decode_frame` succeeds, the reported stream sample rate, the reported
decoded frame size, and whether the sink accepts the write. -/
structure DecodeOutcome where
  fill_ok : Bool
  consumed_all : Bool
  decode_ok : Bool
  sample_rate : ℤ
  decoded_frame_size : ℕ
  sink_ok : Bool
deriving DecidableEq, Repr

/-- Modelled from the spec: `AudioPacket::parse` (`rtmp/packet.rs`, not under
`src/`) classifies a payload as an AAC sequence header, AAC raw data, or an
unknown tag.  `asc_parse_ok` models the outcome of
`AudioSpecificConfiguration::parse` on a sequence header. -/
inductive AudioPacket where
  | AacSequenceHeader (asc_parse_ok : Bool)
  | AacRawData (dec : DecodeOutcome)
  | Unknown
deriving DecidableEq, Repr

/-- The audio-relevant slice of `ReceiveContext`. -/
structure AudioCtx where
  audio_asc : Option Unit
  audio_timestamp : ℚ
deriving DecidableEq, Repr

/-- Result of one audio packet: a panic (`unwrap` failure or the hard sample
rate assertion), a session-fatal error, or success together with the
`(timestamp, pcm length)` writes pushed to the sink. -/
inductive AudioOutcome where
  | panicked
  | err (e : RtmpError)
  | ok (writes : List (ℚ × ℕ))
deriving DecidableEq, Repr

/-- `receive_audio_packet` (`rtmp/mod.rs:195-261`). -/
def receive_audio_packet (ctx : AudioCtx) (packet : AudioPacket) :
    AudioCtx × AudioOutcome :=
  match packet with
  | AudioPacket.AacSequenceHeader asc_parse_ok =>
    if asc_parse_ok then
      ({ ctx with audio_asc := some () }, AudioOutcome.ok [])
    else
      -- `AudioSpecificConfiguration::parse(bytes)?` surfaces as RtmpError::Aac
      (ctx, AudioOutcome.err RtmpError.Aac)
  | AudioPacket.AacRawData dec =>
    match ctx.audio_asc with
    | none =>
      -- received aac data packet before sequence header, dropping
      (ctx, AudioOutcome.ok [])
    | some _ =>
      -- AAC standard defines a frame to be 1024 samples per channel;
      -- pcm_buffer is allocated with 2048 entries
      if !dec.fill_ok then
        (ctx, AudioOutcome.panicked)  -- `ctx.audio_codec.fill(..).unwrap()`
      else if !dec.consumed_all then
        -- codec did not read all bytes from audio packet
        (ctx, AudioOutcome.ok [])
      else if !dec.decode_ok then
        -- audio codec frame decode error, dropped
        (ctx, AudioOutcome.ok [])
      else if dec.sample_rate ≠ 44100 then
        -- expected stream sample rate to be 44100
        (ctx, AudioOutcome.panicked)
      else
        -- pcm_buffer.len() is still 2048 here
        let frame_time : ℚ := ((2048 / 2 : ℤ) : ℚ) / (dec.sample_rate : ℚ)
        -- pcm_buffer.truncate(decoded_frame_size)
        let pcm_len := min 2048 dec.decoded_frame_size
        if !dec.sink_ok then
          (ctx, AudioOutcome.err RtmpError.SourceSend)
        else
          ({ ctx with audio_timestamp := ctx.audio_timestamp + frame_time },
            AudioOutcome.ok [(ctx.audio_timestamp, pcm_len)])
  | AudioPacket.Unknown =>
    -- received unknown audio packet, dropping
    (ctx, AudioOutcome.ok [])

/-- Drive `receive_audio_packet` over a list of packets, accumulating sink
writes and stopping at the first error or panic. -/
def run_audio (ctx : AudioCtx) : List AudioPacket → AudioCtx × AudioOutcome
  | [] => (ctx, AudioOutcome.ok [])
  | p :: ps =>
    match receive_audio_packet ctx p with
    | (ctx1, AudioOutcome.panicked) => (ctx1, AudioOutcome.panicked)
    | (ctx1, AudioOutcome.err e) => (ctx1, AudioOutcome.err e)
    | (ctx1, AudioOutcome.ok ws) =>
      match run_audio ctx1 ps with
      | (ctx2, AudioOutcome.panicked) => (ctx2, AudioOutcome.panicked)
      | (ctx2, AudioOutcome.err e) => (ctx2, AudioOutcome.err e)
      | (ctx2, AudioOutcome.ok ws2) => (ctx2, AudioOutcome.ok (ws ++ ws2))

/-! ## Metadata handling (`rtmp/mod.rs:172-187`) -/

/-- Rust `q as i64` for a rational float value: truncation toward zero. -/
def ratTrunc (q : ℚ) : ℤ := if 0 ≤ q then ⌊q⌋ else -⌊-q⌋

/-- The `StreamMetadataChanged` arm of `handle_event` (`rtmp/mod.rs:172-187`),
acting on the stored metadata slot.  The float value `frame_rate` is carried
as an exact `ℚ`; `(frame_rate * 100.0) as i64` is the truncating cast of the
product.  Returns `none` where the Rust code panics: `Rational64::recip` on a
zero numerator. -/
def handle_stream_metadata (meta : Option StreamMeta) (video_frame_rate : Option ℚ) :
    Option (Option StreamMeta × Except RtmpError Unit) :=
  match video_frame_rate with
  | some frame_rate =>
    let n : ℤ := ratTrunc (frame_rate * 100)
    if n = 0 then
      none
    else
      let video_frame_duration : ℚ := ((n : ℚ) / 100)⁻¹
      some (some { video_frame_duration := video_frame_duration }, Except.ok ())
  | none =>
    -- no frame rate in metadata
    some (meta, Except.error RtmpError.UnsupportedStream)

/-! ## Run helpers for the muxer -/

/-- The sample durations emitted in a media segment, in `trun` order. -/
def emitted_durations (seg : MediaSegment) : List ℕ :=
  (seg.moof_box.traf_boxes.flatMap fun t => t.trun_box.samples).filterMap Sample.duration

/-- The accumulated time of the track addressed by a `TrackData`. -/
def track_time (m : Mp4Mux) : TrackData → MediaTime
  | TrackData.audio _ => m.audio_time
  | TrackData.video _ => m.video_time

/-- Iterate `write_track` `n` times with a fixed duration and track data,
collecting the emitted sample durations. -/
def runTrack (m : Mp4Mux) (d : MediaDuration) (td : TrackData) : ℕ → Option (Mp4Mux × List ℕ)
  | 0 => some (m, [])
  | n + 1 =>
    match m.write_track d td with
    | none => none
    | some (m1, seg) =>
      match runTrack m1 d td n with
      | none => none
      | some (mf, ds) => some (mf, emitted_durations seg ++ ds)

/-- A minimal valid audio `TrackData`: exactly the 7 ADTS header bytes. -/
def td0 : TrackData := TrackData.audio ⟨[0, 0, 0, 0, 0, 0, 0]⟩

/-- The muxer state after `n` zero-duration audio `write_track` calls on a
fresh `Mp4Mux` with timescale 1000. -/
def muxN : ℕ → Mp4Mux
  | 0 => (Mp4Mux.new ⟨1000, 0, 0, []⟩).1
  | n + 1 =>
    match (muxN n).write_track 0 td0 with
    | some r => r.1
    | none => muxN n

/-! ## Theorems -/

/-- C4: for every `Mp4Params`, the initialization segment returned by
`Mp4Mux::new` declares exactly two tracks, the audio track with ID 1 and the
video track with ID 2, each with track-header duration `0xFFFFFFFF` and
volume `0x0100`, and the top-level `mvhd` declares no movie duration (the
field is written as 0, "no duration outside of extension fragments"). -/
theorem c4_init_segment_two_tracks (params : Mp4Params) :
    ((Mp4Mux.new params).2.moov_box.trak_boxes.map fun t =>
        (t.tkhd_box.track_id, t.mdia_box.hdlr_box.handler_type,
          t.tkhd_box.duration, t.tkhd_box.volume)) =
      [(1, "soun", 0xFFFFFFFF, 0x0100), (2, "vide", 0xFFFFFFFF, 0x0100)] ∧
    (Mp4Mux.new params).2.moov_box.mvhd_box.duration = 0 := by
  exact ⟨rfl, rfl⟩

/-- C5: `FrameId` equality holds iff the two handles reference the identical
underlying `Frame` allocation; two `Frame`s with byte-identical payloads in
distinct allocations compare unequal; clones of one handle compare equal. -/
theorem c5_frame_id_pointer_identity :
    (∀ a b : FrameId, FrameId.eq a b = true ↔ a.arc.addr = b.arc.addr) ∧
    (∀ a b : ArcFrame, a.frame = b.frame → a.addr ≠ b.addr →
      FrameId.eq a.id b.id = false) ∧
    (∀ a : ArcFrame, FrameId.eq a.clone.id a.clone.id = true) := by
  refine ⟨fun a b => ?_, fun a b _ hne => ?_, fun a => ?_⟩
  · simp [FrameId.eq]
  · simpa [FrameId.eq, ArcFrame.id, ArcFrame.clone] using hne
  · simp [FrameId.eq]

/-- C5 witness: two frames with identical payloads at addresses 0 and 1
compare unequal, and two clones of the first handle compare equal. -/
theorem c5_frame_id_pointer_identity_witness :
    FrameId.eq (ArcFrame.id ⟨0, ⟨false, [1, 2], 0, none⟩⟩)
        (ArcFrame.id ⟨1, ⟨false, [1, 2], 0, none⟩⟩) = false ∧
    FrameId.eq (ArcFrame.clone ⟨0, ⟨false, [1, 2], 0, none⟩⟩).id
        (ArcFrame.clone ⟨0, ⟨false, [1, 2], 0, none⟩⟩).id = true :=
  ⟨c5_frame_id_pointer_identity.2.1 _ _ rfl (by decide),
    c5_frame_id_pointer_identity.2.2 ⟨0, ⟨false, [1, 2], 0, none⟩⟩⟩

/-- C7: a video packet received while the session's stream metadata is absent
fails with the session-fatal `MetadataNotYetSent` error and leaves the
session state unchanged. -/
theorem c7_video_before_metadata_fatal (ctx : VideoCtx) (packet : Option AvcPacket)
    (h : ctx.meta = none) :
    receive_video_packet ctx packet = (ctx, Except.error RtmpError.MetadataNotYetSent) := by
  simp [receive_video_packet, h]

/-- C7 witness: a concrete packet against a metadata-less context. -/
theorem c7_video_before_metadata_fatal_witness :
    receive_video_packet ⟨none, none, none, 0⟩ (some ⟨false, false, true, [1]⟩) =
      (⟨none, none, none, 0⟩, Except.error RtmpError.MetadataNotYetSent) :=
  c7_video_before_metadata_fatal ⟨none, none, none, 0⟩ (some ⟨false, false, true, [1]⟩) rfl

/-- C8 counterexample: at the exactly representable frame rate `3/16`
(`r * 100.0` is computed exactly by the float arithmetic, no rounding error),
the code stores duration `(trunc 18.75 / 100)⁻¹ = 50/9`, while the claim's
formula `(round(r × 100) / 100)⁻¹ = 100/19` disagrees. -/
theorem c8_truncation_not_round_counterexample :
    handle_stream_metadata none (some (3 / 16)) =
      some (some { video_frame_duration := 50 / 9 }, Except.ok ()) ∧
    ((50 : ℚ) / 9) ≠ ((round ((3 / 16 : ℚ) * 100) : ℚ) / 100)⁻¹ := by
  constructor
  · norm_num [handle_stream_metadata, ratTrunc]
  · rw [round_eq]; norm_num

/-- C8 (amended): the stored video frame duration equals the reciprocal of
`trunc(r × 100) / 100` — the Rust `as i64` cast truncates toward zero rather
than rounding to nearest — and a metadata event without a frame rate yields
the session-fatal `UnsupportedStream` error and leaves the stored metadata
unchanged. -/
theorem c8_frame_duration_truncated_reciprocal :
    (∀ (meta : Option StreamMeta) (frame_rate : ℚ),
      ratTrunc (frame_rate * 100) ≠ 0 →
      handle_stream_metadata meta (some frame_rate) =
        some (some { video_frame_duration := ((ratTrunc (frame_rate * 100) : ℚ) / 100)⁻¹ },
          Except.ok ())) ∧
    (∀ meta : Option StreamMeta,
      handle_stream_metadata meta none = some (meta, Except.error RtmpError.UnsupportedStream)) := by
  refine ⟨fun meta frame_rate h => ?_, fun meta => rfl⟩
  simp [handle_stream_metadata, h]

/-- C8 witness: the amended formula evaluated at frame rate `3/16` and the
error case at a concrete stored metadata value. -/
theorem c8_frame_duration_truncated_reciprocal_witness :
    handle_stream_metadata none (some (3 / 16)) =
      some (some { video_frame_duration := ((ratTrunc ((3 / 16 : ℚ) * 100) : ℚ) / 100)⁻¹ },
        Except.ok ()) ∧
    handle_stream_metadata (some ⟨1⟩) none =
      some (some ⟨1⟩, Except.error RtmpError.UnsupportedStream) :=
  ⟨c8_frame_duration_truncated_reciprocal.1 none (3 / 16) (by norm_num [ratTrunc]),
    c8_frame_duration_truncated_reciprocal.2 (some ⟨1⟩)⟩

/-- The built segment keeps exactly the `mdat` box handed to the patch pass. -/
theorem finish_segment_mdat (m : Mp4Mux) (traf : TrackFragmentBox) (mdat : MediaDataBox) :
    (finish_segment m traf mdat).2.mdat_boxes = [mdat] := rfl

/-- An audio `write_track` call succeeds whenever the payload carries at
least the 7 ADTS header bytes. -/
theorem write_track_audio_isSome (m : Mp4Mux) (d : MediaDuration) (a : AdtsFrame)
    (h : ¬a.bytes.length < 7) : (m.write_track d (TrackData.audio a)).isSome = true := by
  simp [Mp4Mux.write_track, make_media_segment, h]

/-- C10: `write_track` on audio strips the first 7 payload bytes as the ADTS
header (the stored `mdat` data is the payload minus its first 7 bytes), and
it returns a segment exactly when the payload is at least 7 bytes long — for
any shorter payload the Rust slice `[7..]` panics (modelled as `none`). -/
theorem c10_audio_payload_shorter_than_7_panics :
    (∀ (m : Mp4Mux) (d : MediaDuration) (a : AdtsFrame),
      (m.write_track d (TrackData.audio a)).isSome ↔ 7 ≤ a.bytes.length) ∧
    (∀ (m : Mp4Mux) (d : MediaDuration) (a : AdtsFrame) (r : Mp4Mux × MediaSegment),
      m.write_track d (TrackData.audio a) = some r →
      r.2.mdat_boxes.map MediaDataBox.data = [a.bytes.drop 7]) := by
  constructor
  · intro m d a
    by_cases hlen : a.bytes.length < 7
    all_goals simp [Mp4Mux.write_track, make_media_segment, hlen]
    all_goals omega
  · intro m d a r h
    simp only [Mp4Mux.write_track, make_media_segment] at h
    split at h
    · exact absurd h (by simp)
    · cases Option.some.inj h
      simp [finish_segment_mdat]

/-- C10 witness: a 3-byte audio payload yields no segment (the code panics),
while a 9-byte payload yields a segment whose `mdat` holds bytes 7 onward. -/
theorem c10_audio_payload_shorter_than_7_panics_witness :
    ¬(Mp4Mux.write_track ⟨0, 1000, 0, 0⟩ 0 (TrackData.audio ⟨[1, 2, 3]⟩)).isSome ∧
    ((Mp4Mux.write_track ⟨0, 1000, 0, 0⟩ 0
        (TrackData.audio ⟨[0, 1, 2, 3, 4, 5, 6, 7, 8]⟩)).map
      fun r => r.2.mdat_boxes.map MediaDataBox.data) = some [[7, 8]] := by
  constructor
  · intro hs
    exact absurd ((c10_audio_payload_shorter_than_7_panics.1 ⟨0, 1000, 0, 0⟩ 0 ⟨[1, 2, 3]⟩).mp hs)
      (by norm_num)
  · match hw : Mp4Mux.write_track ⟨0, 1000, 0, 0⟩ 0
        (TrackData.audio ⟨[0, 1, 2, 3, 4, 5, 6, 7, 8]⟩) with
    | none =>
      have := (c10_audio_payload_shorter_than_7_panics.1 ⟨0, 1000, 0, 0⟩ 0
        ⟨[0, 1, 2, 3, 4, 5, 6, 7, 8]⟩).mpr (by norm_num)
      rw [hw] at this
      exact absurd this (by simp)
    | some r =>
      have := c10_audio_payload_shorter_than_7_panics.2 ⟨0, 1000, 0, 0⟩ 0
        ⟨[0, 1, 2, 3, 4, 5, 6, 7, 8]⟩ r hw
      simp [this]

/-- C3: for every successful `write_track` call, the returned segment has a
single `traf` whose declared `trun` data offset equals the serialized byte
size of that segment's own `moof` box plus 8, the offset having been patched
after the `moof` size was computed in a second pass. -/
theorem c3_trun_data_offset_is_moof_size_plus_8 (m : Mp4Mux) (d : MediaDuration)
    (td : TrackData) (r : Mp4Mux × MediaSegment)
    (h : m.write_track d td = some r) :
    (r.2.moof_box.traf_boxes.map fun t => t.trun_box.data_offset) =
      [some ((r.2.moof_box.box_size : ℤ) + 8)] := by
  cases td with
  | audio a =>
    simp only [Mp4Mux.write_track, make_media_segment] at h
    split at h
    · exact absurd h (by simp)
    · cases Option.some.inj h
      simp [finish_segment, MovieFragmentBox.box_size, TrackFragmentBox.box_size,
        TrackFragmentHeaderBox.box_size, TrackRunBox.box_size, Sample.entry_size,
        optSize, i32ofI64]
  | video v =>
    simp only [Mp4Mux.write_track, make_media_segment] at h
    cases Option.some.inj h
    simp [finish_segment, MovieFragmentBox.box_size, TrackFragmentBox.box_size,
      TrackFragmentHeaderBox.box_size, TrackRunBox.box_size, Sample.entry_size,
      optSize, i32ofI64]

/-- C3 witness: a concrete audio call; the declared offset equals the `moof`
size plus 8 on the returned segment. -/
theorem c3_trun_data_offset_is_moof_size_plus_8_witness :
    ((Mp4Mux.write_track ⟨0, 1000, 0, 0⟩ 0 (TrackData.audio ⟨[0, 1, 2, 3, 4, 5, 6, 7]⟩)).map
      fun r => (r.2.moof_box.traf_boxes.map fun t => t.trun_box.data_offset) =
        [some ((r.2.moof_box.box_size : ℤ) + 8)]) = some True := by
  match hw : Mp4Mux.write_track ⟨0, 1000, 0, 0⟩ 0 (TrackData.audio ⟨[0, 1, 2, 3, 4, 5, 6, 7]⟩) with
  | none =>
    have := write_track_audio_isSome ⟨0, 1000, 0, 0⟩ 0 ⟨[0, 1, 2, 3, 4, 5, 6, 7]⟩ (by norm_num)
    rw [hw] at this
    exact absurd this (by simp)
  | some r =>
    simp [c3_trun_data_offset_is_moof_size_plus_8 ⟨0, 1000, 0, 0⟩ 0 _ r hw]

/-- C9: raw AAC packets arriving before any sequence header are dropped with
success and the session state is untouched; once the ASC is set, a
successfully decoded raw packet is pushed to the sink at the current running
audio timestamp and the timestamp then advances by the decoded frame
duration `1024 / 44100` (samples over sample rate), not by the RTMP
timestamp; feeding a sequence header then 3 raw packets from a fresh session
yields exactly 3 sink writes at timestamps `0/1`, `1024/44100`, `2048/44100`. -/
theorem c9_audio_timestamps_advance_by_frame_duration :
    (∀ (ctx : AudioCtx) (dec : DecodeOutcome), ctx.audio_asc = none →
      receive_audio_packet ctx (AudioPacket.AacRawData dec) = (ctx, AudioOutcome.ok [])) ∧
    (∀ (ctx : AudioCtx) (dec : DecodeOutcome), ctx.audio_asc = some () →
      dec.fill_ok = true → dec.consumed_all = true → dec.decode_ok = true →
      dec.sample_rate = 44100 → dec.sink_ok = true →
      receive_audio_packet ctx (AudioPacket.AacRawData dec) =
        ({ ctx with audio_timestamp := ctx.audio_timestamp + 1024 / 44100 },
          AudioOutcome.ok [(ctx.audio_timestamp, min 2048 dec.decoded_frame_size)])) ∧
    run_audio ⟨none, 0⟩
        [AudioPacket.AacSequenceHeader true,
          AudioPacket.AacRawData ⟨true, true, true, 44100, 2048, true⟩,
          AudioPacket.AacRawData ⟨true, true, true, 44100, 2048, true⟩,
          AudioPacket.AacRawData ⟨true, true, true, 44100, 2048, true⟩] =
      (⟨some (), 3 * (1024 / 44100)⟩,
        AudioOutcome.ok [(0, 2048), (1024 / 44100, 2048), (2048 / 44100, 2048)]) := by
  refine ⟨fun ctx dec h => ?_, fun ctx dec hasc h1 h2 h3 h4 h5 => ?_, ?_⟩
  · simp [receive_audio_packet, h]
  · cases ctx
    simp only [receive_audio_packet] at hasc ⊢
    subst hasc
    rw [h1, h2, h3, h4, h5]
    norm_num
  · norm_num [run_audio, receive_audio_packet]

/-- C9 witness: the pre-header drop and the happy-path push evaluated at a
concrete session state and decoder outcome. -/
theorem c9_audio_timestamps_advance_by_frame_duration_witness :
    receive_audio_packet ⟨none, 5⟩ (AudioPacket.AacRawData ⟨true, true, true, 44100, 2048, true⟩) =
      (⟨none, 5⟩, AudioOutcome.ok []) ∧
    receive_audio_packet ⟨some (), 0⟩
        (AudioPacket.AacRawData ⟨true, true, true, 44100, 1500, true⟩) =
      (⟨some (), 0 + 1024 / 44100⟩, AudioOutcome.ok [(0, min 2048 1500)]) :=
  ⟨c9_audio_timestamps_advance_by_frame_duration.1 ⟨none, 5⟩ _ rfl,
    c9_audio_timestamps_advance_by_frame_duration.2.1 ⟨some (), 0⟩
      ⟨true, true, true, 44100, 1500, true⟩ rfl rfl rfl rfl rfl rfl⟩

/-- One video packet processed with metadata and a DCR present: it succeeds,
preserves the metadata and DCR slots, emits frames obeying the key-frame
back-reference discipline, and leaves the most-recent-key-frame slot at
`afterKey` of the emitted frames. -/
theorem receive_video_packet_ok_step (ctx : VideoCtx) (p : Option AvcPacket)
    (m0 : StreamMeta) (hm : ctx.meta = some m0) (hd : ctx.video_dcr.isSome = true) :
    ∃ ctx1 fs,
      receive_video_packet ctx p = (ctx1, Except.ok fs) ∧
      ctx1.meta = ctx.meta ∧
      ctx1.video_dcr.isSome = true ∧
      goodFrames (ctx.video_key_frame.map ArcFrame.addr) fs ∧
      ctx1.video_key_frame.map ArcFrame.addr =
        afterKey (ctx.video_key_frame.map ArcFrame.addr) fs := by
  obtain ⟨cmeta, cdcr, cvkf, cna⟩ := ctx
  simp only at hm hd
  subst hm
  cases p with
  | none =>
    exact ⟨_, [], by simp [receive_video_packet], rfl, hd, trivial, rfl⟩
  | some packet =>
    obtain ⟨u, hu⟩ := Option.isSome_iff_exists.mp hd
    cases u
    subst hu
    by_cases hsh : (packet.is_seq_header && packet.dcr_parse_ok) = true
    all_goals cases hkey : packet.frame_is_key
    all_goals simp only [receive_video_packet, hsh, hkey, Bool.false_eq_true, if_true, if_false,
      ite_true, ite_false]
    all_goals exact ⟨_, _, rfl, rfl, rfl, by simp [goodFrames, hkey],
      by simp [afterKey, ArcFrame.clone]⟩

/-- `afterKey` distributes over list append. -/
theorem afterKey_append (k : Option ℕ) (xs ys : List ArcFrame) :
    afterKey k (xs ++ ys) = afterKey (afterKey k xs) ys := by
  simp [afterKey, List.foldl_append]

/-- `goodFrames` glues along append: a good prefix followed by frames good
for the prefix's final key-frame pointer. -/
theorem goodFrames_append {k : Option ℕ} {xs ys : List ArcFrame}
    (hx : goodFrames k xs) (hy : goodFrames (afterKey k xs) ys) :
    goodFrames k (xs ++ ys) := by
  induction xs generalizing k with
  | nil => simpa [afterKey] using hy
  | cons f xs ih =>
    simp only [goodFrames, List.cons_append] at hx ⊢
    by_cases hkey : f.frame.frame_type_is_key
    · simp only [hkey, if_true] at hx ⊢
      refine ⟨hx.1, ih hx.2 ?_⟩
      simpa [afterKey, hkey] using hy
    · simp only [hkey, if_false] at hx ⊢
      refine ⟨hx.1, ih hx.2 ?_⟩
      simpa [afterKey, hkey] using hy

/-- Running the video pipeline with metadata and a DCR present: every emitted
frame obeys the key-frame back-reference discipline, the metadata and DCR
slots survive, and the most-recent-key-frame slot ends at `afterKey` of the
emitted frames. -/
theorem run_video_good (pkts : List (Option AvcPacket)) :
    ∀ (ctx ctx' : VideoCtx) (fs : List ArcFrame) (m0 : StreamMeta),
      ctx.meta = some m0 → ctx.video_dcr.isSome = true →
      run_video ctx pkts = (ctx', Except.ok fs) →
      goodFrames (ctx.video_key_frame.map ArcFrame.addr) fs ∧
        ctx'.meta = ctx.meta ∧ ctx'.video_dcr.isSome = true ∧
        ctx'.video_key_frame.map ArcFrame.addr =
          afterKey (ctx.video_key_frame.map ArcFrame.addr) fs := by
  induction pkts with
  | nil =>
    intro ctx ctx' fs m0 hm hd hrun
    simp only [run_video, Prod.mk.injEq, Except.ok.injEq] at hrun
    obtain ⟨rfl, rfl⟩ := hrun
    exact ⟨trivial, rfl, hd, rfl⟩
  | cons p ps ih =>
    intro ctx ctx' fs m0 hm hd hrun
    obtain ⟨ctx1, fs1, hr, hmeta1, hd1, hgood1, hkf1⟩ :=
      receive_video_packet_ok_step ctx p m0 hm hd
    rw [run_video, hr] at hrun
    dsimp only at hrun
    match hrun2 : run_video ctx1 ps with
    | (ctx2, Except.error e) =>
      rw [hrun2] at hrun
      exact absurd (congrArg Prod.snd hrun) (by simp)
    | (ctx2, Except.ok fs2) =>
      rw [hrun2] at hrun
      obtain ⟨rfl, rfl⟩ : ctx2 = ctx' ∧ fs1 ++ fs2 = fs := by
        simpa using hrun
      obtain ⟨hgood2, hmeta2, hd2, hkf2⟩ :=
        ih ctx1 ctx2 fs2 m0 (hmeta1.trans hm) hd1 hrun2

      refine ⟨goodFrames_append hgood1 (hkf1 ▸ hgood2), hmeta2.trans hmeta1, hd2, ?_⟩
      rw [afterKey_append, ← hkf1, hkf2]

/-- C6: after a DCR is present (and metadata has arrived), every emitted key
frame carries no key-frame reference and becomes the new
most-recent-key-frame pointer, and every emitted non-key frame references
exactly the allocation of the most recently emitted key frame (one hop,
never through another non-key frame, never stale) — `goodFrames` — and the
session's key-frame slot ends at the last emitted key frame. -/
theorem c6_key_frame_back_references (ctx ctx' : VideoCtx)
    (pkts : List (Option AvcPacket)) (fs : List ArcFrame) (m0 : StreamMeta)
    (hm : ctx.meta = some m0) (hd : ctx.video_dcr.isSome = true)
    (hrun : run_video ctx pkts = (ctx', Except.ok fs)) :
    goodFrames (ctx.video_key_frame.map ArcFrame.addr) fs ∧
      ctx'.video_key_frame.map ArcFrame.addr =
        afterKey (ctx.video_key_frame.map ArcFrame.addr) fs := by
  obtain ⟨h1, _, _, h4⟩ := run_video_good pkts ctx ctx' fs m0 hm hd hrun
  exact ⟨h1, h4⟩

/-- C6 witness: a key frame followed by two inter frames, from a fresh
session with metadata and DCR present — the key frame (allocation 0) has no
reference, both inter frames reference allocation 0, and the key-frame slot
ends at allocation 0. -/
theorem c6_key_frame_back_references_witness :
    goodFrames ((⟨some ⟨1⟩, some (), none, 0⟩ : VideoCtx).video_key_frame.map ArcFrame.addr)
        [⟨0, ⟨true, [1], 1, none⟩⟩, ⟨1, ⟨false, [2], 1, some 0⟩⟩,
          ⟨2, ⟨false, [3], 1, some 0⟩⟩] ∧
      ((⟨some ⟨1⟩, some (), some ⟨0, ⟨true, [1], 1, none⟩⟩, 3⟩ :
          VideoCtx).video_key_frame.map ArcFrame.addr) =
        afterKey ((⟨some ⟨1⟩, some (), none, 0⟩ : VideoCtx).video_key_frame.map ArcFrame.addr)
          [⟨0, ⟨true, [1], 1, none⟩⟩, ⟨1, ⟨false, [2], 1, some 0⟩⟩,
            ⟨2, ⟨false, [3], 1, some 0⟩⟩] :=
  c6_key_frame_back_references ⟨some ⟨1⟩, some (), none, 0⟩
    ⟨some ⟨1⟩, some (), some ⟨0, ⟨true, [1], 1, none⟩⟩, 3⟩
    [some ⟨false, true, true, [1]⟩, some ⟨false, false, false, [2]⟩,
      some ⟨false, false, false, [3]⟩]
    [⟨0, ⟨true, [1], 1, none⟩⟩, ⟨1, ⟨false, [2], 1, some 0⟩⟩, ⟨2, ⟨false, [3], 1, some 0⟩⟩]
    ⟨1⟩ rfl rfl (by simp [run_video, receive_video_packet, ArcFrame.clone])

/-- Characterization of a successful audio `write_track`: state update and
the emitted `mfhd` sequence number and sample durations. -/
theorem write_track_audio_parts (m : Mp4Mux) (d : MediaDuration) (a : AdtsFrame)
    (h : ¬a.bytes.length < 7) :
    (m.write_track d (TrackData.audio a)).map
        (fun r => (r.1, r.2.moof_box.mfhd_box.sequence_number, emitted_durations r.2)) =
      some ({ m with sequence := (m.sequence + 1) % 2 ^ 32, audio_time := m.audio_time + d },
        (m.sequence + 1) % 2 ^ 32,
        [u32ofI64 (MediaTime.round_to_base (m.audio_time + d) (m.timescale : ℤ) -
          MediaTime.round_to_base m.audio_time (m.timescale : ℤ))]) := by
  obtain ⟨seq, ts, ta, tv⟩ := m
  simp [Mp4Mux.write_track, make_media_segment, h, finish_segment, emitted_durations]

/-- Characterization of a (always successful) video `write_track`. -/
theorem write_track_video_parts (m : Mp4Mux) (d : MediaDuration) (v : AvcFrame) :
    (m.write_track d (TrackData.video v)).map
        (fun r => (r.1, r.2.moof_box.mfhd_box.sequence_number, emitted_durations r.2)) =
      some ({ m with sequence := (m.sequence + 1) % 2 ^ 32, video_time := m.video_time + d },
        (m.sequence + 1) % 2 ^ 32,
        [u32ofI64 (MediaTime.round_to_base (m.video_time + d) (m.timescale : ℤ) -
          MediaTime.round_to_base m.video_time (m.timescale : ℤ))]) := by
  obtain ⟨seq, ts, ta, tv⟩ := m
  simp [Mp4Mux.write_track, make_media_segment, finish_segment, emitted_durations]

/-- C1 (amended per the `u32` wrap-around): every successful `write_track`
call advances the `u32` sequence counter by exactly 1 modulo `2 ^ 32` — an
exact increment by 1 with no gap as long as the counter has not yet reached
`u32::MAX` — emits that counter value in the `mfhd` box, and advances only
the addressed track's time accumulator, by exactly the (non-negative)
duration, leaving both accumulators monotonically non-decreasing. -/
theorem c1_sequence_increments_and_times_monotonic (m : Mp4Mux) (d : MediaDuration)
    (td : TrackData) (r : Mp4Mux × MediaSegment) (hd : 0 ≤ d)
    (h : m.write_track d td = some r) :
    (r.1.sequence = (m.sequence + 1) % 2 ^ 32 ∧
      r.2.moof_box.mfhd_box.sequence_number = r.1.sequence ∧
      (m.sequence + 1 < 2 ^ 32 → r.1.sequence = m.sequence + 1)) ∧
    (m.audio_time ≤ r.1.audio_time ∧ m.video_time ≤ r.1.video_time) ∧
    (∀ a, td = TrackData.audio a →
      r.1.audio_time = m.audio_time + d ∧ r.1.video_time = m.video_time) ∧
    (∀ v, td = TrackData.video v →
      r.1.video_time = m.video_time + d ∧ r.1.audio_time = m.audio_time) := by
  cases td with
  | audio a =>
    have hlen : ¬a.bytes.length < 7 := by
      intro hlt
      have hnone : m.write_track d (TrackData.audio a) = none := by
        simp [Mp4Mux.write_track, make_media_segment, hlt]
      rw [hnone] at h
      exact Option.noConfusion h
    have hp := write_track_audio_parts m d a hlen
    rw [h] at hp
    simp only [Option.map_some', Option.some.injEq, Prod.mk.injEq] at hp
    obtain ⟨hmux, hseq, _⟩ := hp
    refine ⟨⟨?_, ?_, ?_⟩, ⟨?_, ?_⟩, ?_, ?_⟩
    · rw [hmux]
    · rw [hseq, hmux]
    · intro hlt
      rw [hmux]
      simpa using Nat.mod_eq_of_lt hlt
    · rw [hmux]
      show m.audio_time ≤ m.audio_time + d
      linarith
    · rw [hmux]
    · intro a' _
      rw [hmux]
      exact ⟨rfl, rfl⟩
    · intro v hv
      exact absurd hv (by simp)
  | video v =>
    have hp := write_track_video_parts m d v
    rw [h] at hp
    simp only [Option.map_some', Option.some.injEq, Prod.mk.injEq] at hp
    obtain ⟨hmux, hseq, _⟩ := hp
    refine ⟨⟨?_, ?_, ?_⟩, ⟨?_, ?_⟩, ?_, ?_⟩
    · rw [hmux]
    · rw [hseq, hmux]
    · intro hlt
      rw [hmux]
      simpa using Nat.mod_eq_of_lt hlt
    · rw [hmux]
    · rw [hmux]
      show m.video_time ≤ m.video_time + d
      linarith
    · intro a ha
      exact absurd ha (by simp)
    · intro v' _
      rw [hmux]
      exact ⟨rfl, rfl⟩

/-- C1 witness: one audio call with duration 1 on a fresh muxer with sequence
0: the counter becomes 1 with the `mfhd` echoing it, the audio accumulator
advances to 1 and the video accumulator stays 0. -/
theorem c1_sequence_increments_and_times_monotonic_witness :
    ((Mp4Mux.write_track ⟨0, 1000, 0, 0⟩ 1 td0).map
      fun r => (r.1.sequence = (0 + 1) % 2 ^ 32 ∧
        r.2.moof_box.mfhd_box.sequence_number = r.1.sequence ∧
        (0 + 1 < 2 ^ 32 → r.1.sequence = 0 + 1)) ∧
        ((0 : ℚ) ≤ r.1.audio_time ∧ (0 : ℚ) ≤ r.1.video_time) ∧
        (∀ a, td0 = TrackData.audio a →
          r.1.audio_time = 0 + 1 ∧ r.1.video_time = 0) ∧
        (∀ v, td0 = TrackData.video v →
          r.1.video_time = 0 + 1 ∧ r.1.audio_time = 0)) = some True := by
  match hw : Mp4Mux.write_track ⟨0, 1000, 0, 0⟩ 1 td0 with
  | none =>
    have hs := write_track_audio_isSome ⟨0, 1000, 0, 0⟩ 1 ⟨[0, 0, 0, 0, 0, 0, 0]⟩ (by norm_num)
    simp only [td0] at hw
    rw [hw] at hs
    exact absurd hs (by simp)
  | some r =>
    have hc := c1_sequence_increments_and_times_monotonic ⟨0, 1000, 0, 0⟩ 1 td0 r
      (by norm_num) hw
    simp only [Option.map_some']
    exact congrArg some (eq_true hc)

/-- Projections of a successful audio `write_track`: the emitted `mfhd`
sequence number and the updated muxer state. -/
theorem write_track_audio_seq_parts (m : Mp4Mux) (d : MediaDuration) (a : AdtsFrame)
    (h : ¬a.bytes.length < 7) :
    (m.write_track d (TrackData.audio a)).map
        (fun r => r.2.moof_box.mfhd_box.sequence_number) =
      some ((m.sequence + 1) % 2 ^ 32) ∧
    (m.write_track d (TrackData.audio a)).map Prod.fst =
      some { m with sequence := (m.sequence + 1) % 2 ^ 32, audio_time := m.audio_time + d } := by
  obtain ⟨seq, ts, ta, tv⟩ := m
  constructor
  all_goals simp [Mp4Mux.write_track, make_media_segment, h, finish_segment]

/-- The state after `n` iterated zero-duration audio calls: the sequence
counter holds `n % 2 ^ 32` and everything else is unchanged. -/
theorem muxN_state (n : ℕ) : muxN n = ⟨n % 2 ^ 32, 1000, 0, 0⟩ := by
  induction n with
  | zero => simp [muxN, Mp4Mux.new]
  | succ n ih =>
    have hp := (write_track_audio_seq_parts (muxN n) 0 ⟨[0, 0, 0, 0, 0, 0, 0]⟩ (by norm_num)).2
    simp only [muxN, td0]
    cases hw : (muxN n).write_track 0 (TrackData.audio ⟨[0, 0, 0, 0, 0, 0, 0]⟩) with
    | none =>
      rw [hw] at hp
      exact absurd hp (by simp)
    | some r =>
      rw [hw] at hp
      simp only [Option.map_some', Option.some.injEq] at hp
      simp only [td0, hw]
      rw [hp, ih]
      have hmod : (n % 2 ^ 32 + 1) % 2 ^ 32 = (n + 1) % 2 ^ 32 := by omega
      simp [hmod]

/-- C1 counterexample: on the `2 ^ 32`-th call the `u32` sequence counter
wraps — the call after the one that emitted `2 ^ 32 - 1` emits 0, not
`2 ^ 32` — so the emitted sequence numbers do not strictly increment by 1
with no gaps over every call sequence. -/
theorem c1_sequence_wraps_at_2_pow_32 :
    ((muxN (2 ^ 32 - 2)).write_track 0 td0).map
        (fun r => r.2.moof_box.mfhd_box.sequence_number) = some (2 ^ 32 - 1) ∧
    ((muxN (2 ^ 32 - 1)).write_track 0 td0).map
        (fun r => r.2.moof_box.mfhd_box.sequence_number) = some 0 ∧
    (2 ^ 32 - 1) + 1 ≠ (0 : ℕ) := by
  have h1 := (write_track_audio_seq_parts ⟨(2 ^ 32 - 2) % 2 ^ 32, 1000, 0, 0⟩ 0
    ⟨[0, 0, 0, 0, 0, 0, 0]⟩ (by norm_num)).1
  have h2 := (write_track_audio_seq_parts ⟨(2 ^ 32 - 1) % 2 ^ 32, 1000, 0, 0⟩ 0
    ⟨[0, 0, 0, 0, 0, 0, 0]⟩ (by norm_num)).1
  refine ⟨?_, ?_, by norm_num⟩
  · rw [muxN_state, td0, h1]
    simp only [Option.some.injEq]
    omega
  · rw [muxN_state, td0, h2]
    simp only [Option.some.injEq]
    omega

/-- `⌊x⌋ + ⌊y⌋ ≤ ⌊x + y⌋`. -/
theorem add_floor_le_floor_add (x y : ℚ) : ⌊x⌋ + ⌊y⌋ ≤ ⌊x + y⌋ := by
  apply Int.le_floor.mpr
  push_cast
  exact add_le_add (Int.floor_le x) (Int.floor_le y)

/-- `⌊x + y⌋ ≤ ⌊x⌋ + ⌊y⌋ + 1`. -/
theorem floor_add_le_add_one (x y : ℚ) : ⌊x + y⌋ ≤ ⌊x⌋ + ⌊y⌋ + 1 := by
  have hx := Int.lt_floor_add_one x
  have hy := Int.lt_floor_add_one y
  have hsum : x + y < ((⌊x⌋ + ⌊y⌋ + 2 : ℤ) : ℚ) := by push_cast; linarith
  have := Int.floor_lt.mpr hsum
  omega

/-- Two-point rounding is monotone in the time argument. -/
theorem round_to_base_mono {t u : ℚ} (ts : ℕ) (h : t ≤ u) :
    MediaTime.round_to_base t (ts : ℤ) ≤ MediaTime.round_to_base u (ts : ℤ) := by
  apply Int.floor_mono
  have hts : (0 : ℚ) ≤ (ts : ℚ) := by positivity
  exact mul_le_mul_of_nonneg_right h hts

/-- The per-call tick difference is bounded by `⌊d·ts⌋ + 1`, hence fits in
`u32` whenever `d·ts + 1 < 2 ^ 32`. -/
theorem round_to_base_diff_lt (t d : ℚ) (ts : ℕ) (hbound : (d * ts + 1 : ℚ) < 2 ^ 32) :
    MediaTime.round_to_base (t + d) (ts : ℤ) - MediaTime.round_to_base t (ts : ℤ) < 2 ^ 32 := by
  have harg : (t + d) * (ts : ℚ) = t * ts + d * ts := by ring
  have h1 : ⌊(t + d) * (ts : ℚ)⌋ ≤ ⌊t * (ts : ℚ)⌋ + ⌊d * (ts : ℚ)⌋ + 1 := by
    rw [harg]; exact floor_add_le_add_one _ _
  have h2 : ((⌊d * (ts : ℚ)⌋ : ℚ)) ≤ d * ts := Int.floor_le _
  have h3 : (⌊d * (ts : ℚ)⌋ : ℤ) + 1 < 2 ^ 32 := by
    have : ((⌊d * (ts : ℚ)⌋ : ℚ) + 1) < 2 ^ 32 := by linarith
    exact_mod_cast this
  unfold MediaTime.round_to_base
  push_cast
  omega

/-- `u32ofI64` is the identity on values already in `u32` range. -/
theorem u32ofI64_eq (x : ℤ) (h0 : 0 ≤ x) (hlt : x < 2 ^ 32) : (u32ofI64 x : ℤ) = x := by
  unfold u32ofI64
  rw [Int.emod_eq_of_lt h0 hlt]
  exact Int.toNat_of_nonneg h0

/-- Generic characterization of one successful `write_track` call: the
timescale is preserved, the addressed track's accumulator advances by `d`,
and exactly one sample duration is emitted — the `u32` reduction of the
two-point rounded difference. -/
theorem write_track_parts (m : Mp4Mux) (d : MediaDuration) (td : TrackData)
    (r : Mp4Mux × MediaSegment) (h : m.write_track d td = some r) :
    r.1.timescale = m.timescale ∧
    track_time r.1 td = track_time m td + d ∧
    emitted_durations r.2 =
      [u32ofI64 (MediaTime.round_to_base (track_time m td + d) (m.timescale : ℤ) -
        MediaTime.round_to_base (track_time m td) (m.timescale : ℤ))] := by
  cases td with
  | audio a =>
    have hlen : ¬a.bytes.length < 7 := by
      intro hlt
      have hnone : m.write_track d (TrackData.audio a) = none := by
        simp [Mp4Mux.write_track, make_media_segment, hlt]
      rw [hnone] at h
      exact Option.noConfusion h
    have hp := write_track_audio_parts m d a hlen
    rw [h] at hp
    simp only [Option.map_some', Option.some.injEq, Prod.mk.injEq] at hp
    obtain ⟨hmux, _, hdur⟩ := hp
    rw [hmux]
    exact ⟨rfl, rfl, hdur⟩
  | video v =>
    have hp := write_track_video_parts m d v
    rw [h] at hp
    simp only [Option.map_some', Option.some.injEq, Prod.mk.injEq] at hp
    obtain ⟨hmux, _, hdur⟩ := hp
    rw [hmux]
    exact ⟨rfl, rfl, hdur⟩

/-- Telescoping: over `n` iterated calls with duration `d`, the emitted
sample durations sum to the difference of the two-point roundings of the
start and end times. -/
theorem runTrack_sum (d : MediaDuration) (td : TrackData) (hd : 0 ≤ d) :
    ∀ (n : ℕ) (m mf : Mp4Mux) (ds : List ℕ),
      ((d * m.timescale + 1 : ℚ) < 2 ^ 32) →
      runTrack m d td n = some (mf, ds) →
      ((ds.sum : ℤ) =
        MediaTime.round_to_base (track_time m td + n * d) (m.timescale : ℤ) -
          MediaTime.round_to_base (track_time m td) (m.timescale : ℤ)) := by
  intro n
  induction n with
  | zero =>
    intro m mf ds _ hrun
    simp only [runTrack, Option.some.injEq, Prod.mk.injEq] at hrun
    obtain ⟨rfl, rfl⟩ := hrun
    simp
  | succ n ih =>
    intro m mf ds hb hrun
    rw [runTrack] at hrun
    cases hw : m.write_track d td with
    | none =>
      rw [hw] at hrun
      exact Option.noConfusion hrun
    | some r =>
      obtain ⟨m1, seg⟩ := r
      rw [hw] at hrun
      dsimp only at hrun
      cases hrun2 : runTrack m1 d td n with
      | none =>
        rw [hrun2] at hrun
        exact Option.noConfusion hrun
      | some p =>
        obtain ⟨mf2, ds2⟩ := p
        rw [hrun2] at hrun
        dsimp only at hrun
        simp only [Option.some.injEq, Prod.mk.injEq] at hrun
        obtain ⟨rfl, rfl⟩ := hrun
        obtain ⟨hts, htt, hdur⟩ := write_track_parts m d td (m1, seg) hw
        have hb1 : (d * m1.timescale + 1 : ℚ) < 2 ^ 32 := by rw [hts]; exact hb
        have hsum2 := ih m1 _ ds2 hb1 hrun2
        rw [htt, hts] at hsum2
        have hmono : MediaTime.round_to_base (track_time m td) (m.timescale : ℤ) ≤
            MediaTime.round_to_base (track_time m td + d) (m.timescale : ℤ) :=
          round_to_base_mono m.timescale (by linarith)
        have hlt := round_to_base_diff_lt (track_time m td) d m.timescale hb
        have hexact := u32ofI64_eq _ (by omega) hlt
        rw [hdur]
        have harg : track_time m td + d + (n : ℚ) * d =
            track_time m td + ((n : ℕ) + 1 : ℕ) * d := by push_cast; ring
        rw [harg] at hsum2
        have hcast : ((u32ofI64 (MediaTime.round_to_base (track_time m td + d) (m.timescale : ℤ) -
            MediaTime.round_to_base (track_time m td) (m.timescale : ℤ)) :: ds2).sum : ℤ) =
            (u32ofI64 (MediaTime.round_to_base (track_time m td + d) (m.timescale : ℤ) -
              MediaTime.round_to_base (track_time m td) (m.timescale : ℤ)) : ℤ) +
              (ds2.sum : ℤ) := by
          push_cast [List.sum_cons]
          ring
        simp only [List.cons_append, List.nil_append]
        rw [hcast, hexact, hsum2]
        omega

/-- C2 (amended per the `u32` sample-duration field): the emitted sample
duration is the two-point difference `round_to_base(t + d) − round_to_base(t)`
reduced to `u32` — equal to the difference itself whenever it fits in 32
bits — and over `N` consecutive same-track calls (with `d·timescale + 1`
within `u32` range) the emitted durations sum to
`round_to_base(t + N·d) − round_to_base(t)`, which is within ±1 tick of the
rounded total `round_to_base(N·d)`: rounding error does not grow with `N`. -/
theorem c2_two_point_rounding_no_drift :
    (∀ (m : Mp4Mux) (d : MediaDuration) (td : TrackData) (r : Mp4Mux × MediaSegment),
      0 ≤ d →
      MediaTime.round_to_base (track_time m td + d) (m.timescale : ℤ) -
          MediaTime.round_to_base (track_time m td) (m.timescale : ℤ) < 2 ^ 32 →
      m.write_track d td = some r →
      emitted_durations r.2 =
        [(MediaTime.round_to_base (track_time m td + d) (m.timescale : ℤ) -
          MediaTime.round_to_base (track_time m td) (m.timescale : ℤ)).toNat]) ∧
    (∀ (m mf : Mp4Mux) (d : MediaDuration) (td : TrackData) (n : ℕ) (ds : List ℕ),
      0 ≤ d → ((d * m.timescale + 1 : ℚ) < 2 ^ 32) →
      runTrack m d td n = some (mf, ds) →
      ((ds.sum : ℤ) =
        MediaTime.round_to_base (track_time m td + n * d) (m.timescale : ℤ) -
          MediaTime.round_to_base (track_time m td) (m.timescale : ℤ)) ∧
      |(ds.sum : ℤ) - MediaTime.round_to_base ((n : ℚ) * d) (m.timescale : ℤ)| ≤ 1) := by
  constructor
  · intro m d td r hd hfit h
    obtain ⟨_, _, hdur⟩ := write_track_parts m d td r h
    have hmono : MediaTime.round_to_base (track_time m td) (m.timescale : ℤ) ≤
        MediaTime.round_to_base (track_time m td + d) (m.timescale : ℤ) :=
      round_to_base_mono m.timescale (by linarith)
    have hexact := u32ofI64_eq
      (MediaTime.round_to_base (track_time m td + d) (m.timescale : ℤ) -
        MediaTime.round_to_base (track_time m td) (m.timescale : ℤ)) (by omega) hfit
    rw [hdur]
    have : u32ofI64 (MediaTime.round_to_base (track_time m td + d) (m.timescale : ℤ) -
        MediaTime.round_to_base (track_time m td) (m.timescale : ℤ)) =
        (MediaTime.round_to_base (track_time m td + d) (m.timescale : ℤ) -
          MediaTime.round_to_base (track_time m td) (m.timescale : ℤ)).toNat := by
      omega
    rw [this]
  · intro m mf d td n ds hd hb hrun
    have hsum := runTrack_sum d td hd n m mf ds hb hrun
    refine ⟨hsum, ?_⟩
    have hsplit : (track_time m td + (n : ℚ) * d) * (m.timescale : ℚ) =
        track_time m td * m.timescale + ((n : ℚ) * d) * m.timescale := by ring
    have hlow := add_floor_le_floor_add (track_time m td * m.timescale)
      (((n : ℚ) * d) * m.timescale)
    have hhigh := floor_add_le_add_one (track_time m td * m.timescale)
      (((n : ℚ) * d) * m.timescale)
    rw [hsum]
    unfold MediaTime.round_to_base
    push_cast
    rw [hsplit, abs_le]
    omega

/-- C2 witness: one audio call of duration `1/30` s at timescale 1000 emits
the two-point difference (33 ticks), and a 1-call run satisfies the
telescoped-sum and ±1 bounds. -/
theorem c2_two_point_rounding_no_drift_witness :
    ((Mp4Mux.write_track ⟨0, 1000, 0, 0⟩ (1 / 30) td0).map fun r =>
      emitted_durations r.2 =
        [(MediaTime.round_to_base ((0 : ℚ) + 1 / 30) ((1000 : ℕ) : ℤ) -
          MediaTime.round_to_base (0 : ℚ) ((1000 : ℕ) : ℤ)).toNat]) = some True ∧
    ((runTrack ⟨0, 1000, 0, 0⟩ (1 / 30) td0 1).map fun p =>
      ((p.2.sum : ℤ) =
        MediaTime.round_to_base ((0 : ℚ) + ((1 : ℕ) : ℚ) * (1 / 30)) ((1000 : ℕ) : ℤ) -
          MediaTime.round_to_base (0 : ℚ) ((1000 : ℕ) : ℤ)) ∧
      |(p.2.sum : ℤ) - MediaTime.round_to_base (((1 : ℕ) : ℚ) * (1 / 30)) ((1000 : ℕ) : ℤ)| ≤ 1)
      = some True := by
  constructor
  · match hw : Mp4Mux.write_track ⟨0, 1000, 0, 0⟩ (1 / 30) td0 with
    | none =>
      have hs := write_track_audio_isSome ⟨0, 1000, 0, 0⟩ (1 / 30) ⟨[0, 0, 0, 0, 0, 0, 0]⟩
        (by norm_num)
      simp only [td0] at hw
      rw [hw] at hs
      exact absurd hs (by simp)
    | some r =>
      have hc := c2_two_point_rounding_no_drift.1 ⟨0, 1000, 0, 0⟩ (1 / 30) td0 r
        (by norm_num)
        (by norm_num [MediaTime.round_to_base, track_time, td0]) hw
      simp only [Option.map_some']
      exact congrArg some (eq_true hc)
  · match hw : runTrack ⟨0, 1000, 0, 0⟩ (1 / 30) td0 1 with
    | none =>
      have hs := write_track_audio_isSome ⟨0, 1000, 0, 0⟩ (1 / 30) ⟨[0, 0, 0, 0, 0, 0, 0]⟩
        (by norm_num)
      obtain ⟨r, hr⟩ := Option.isSome_iff_exists.mp hs
      rw [runTrack] at hw
      rw [show TrackData.audio ⟨[0, 0, 0, 0, 0, 0, 0]⟩ = td0 from rfl] at hr
      rw [hr] at hw
      obtain ⟨m1, seg⟩ := r
      dsimp only [runTrack] at hw
      exact Option.noConfusion hw
    | some p =>
      have hc := c2_two_point_rounding_no_drift.2 ⟨0, 1000, 0, 0⟩ p.1 (1 / 30) td0 1 p.2
        (by norm_num) (by norm_num) hw
      simp only [Option.map_some']
      exact congrArg some (eq_true hc)

/-- C2 counterexample: with timescale 1 and an absurdly large duration of
`2 ^ 32` seconds, the two-point difference is `2 ^ 32` ticks but the `u32`
sample-duration field wraps to 0 — the emitted duration is not the
difference `round_to_base(t + d) − round_to_base(t)` itself. -/
theorem c2_sample_duration_u32_wraps_counterexample :
    ((Mp4Mux.write_track ⟨0, 1, 0, 0⟩ (2 ^ 32) td0).map fun r => emitted_durations r.2) =
      some [0] ∧
    MediaTime.round_to_base (track_time ⟨0, 1, 0, 0⟩ td0 + 2 ^ 32) ((1 : ℕ) : ℤ) -
      MediaTime.round_to_base (track_time ⟨0, 1, 0, 0⟩ td0) ((1 : ℕ) : ℤ) = 2 ^ 32 ∧
    (2 ^ 32 : ℤ).toNat ≠ 0 := by
  refine ⟨?_, ?_, by norm_num [Int.toNat_eq_zero]⟩
  · match hw : Mp4Mux.write_track ⟨0, 1, 0, 0⟩ (2 ^ 32) td0 with
    | none =>
      have hs := write_track_audio_isSome ⟨0, 1, 0, 0⟩ (2 ^ 32) ⟨[0, 0, 0, 0, 0, 0, 0]⟩
        (by norm_num)
      simp only [td0] at hw
      rw [hw] at hs
      exact absurd hs (by simp)
    | some r =>
      obtain ⟨_, _, hdur⟩ := write_track_parts ⟨0, 1, 0, 0⟩ (2 ^ 32) td0 r hw
      simp only [Option.map_some', hdur, Option.some.injEq]
      norm_num [MediaTime.round_to_base, track_time, td0, u32ofI64]
  · norm_num [MediaTime.round_to_base, track_time, td0]

end Mixlab
